import Mathlib

/-
Verification of the supervisor workflow engine of the multi-agent-learning
repository (hierarchical_research_ai).  The definitions below are a shallow
embedding of:

  * src/src/agents/base_agent.py                      (BaseAgent.process,
    BaseAgent._update_state: the uniform agent invocation wrapper)
  * src/src/hierarchical_research_ai/workflows/supervisor.py
    (SupervisorState, the six phase executors, the four transition
    predicates, the LangGraph wiring, and execute_workflow's result
    construction)
  * src/src/hierarchical_research_ai/agents/generation_team.py (EditorAgent's
    observable effect on the shared outputs mapping)

Modelling conventions:
  * Python float quality scores are modelled as `Rat`; the engine only ever
    compares them against the literal thresholds 6.0 / 7.0, so exact
    rational arithmetic is faithful for every comparison the code performs.
  * The underlying LLM call of each agent (`_execute`) is opaque; a phase
    pass is parameterised by a behaviour function assigning to each agent
    invocation either a structured result or a raised exception message.
  * `messages` (the LangChain chat transcript) and the per-invocation
    `metadata` scratch dict are not modelled: no claim mentions them and
    their contents are opaque LLM text.
  * Python dict entries of `agent_outputs` written by BaseAgent._update_state
    are lists of results; the supervisor also dispatches on dict-shaped
    entries (isinstance checks), so output values are a sum of the two.
-/

namespace MultiAgent

/-- One structured agent result (a Python dict).  The engine reads only
`quality_score` (and a timestamp is always present); `payload` stands for the
remaining opaque fields. -/
structure AgentResult where
  timestamp : Nat := 0
  quality_score : Option Rat := none
  payload : String := ""
deriving Repr, DecidableEq

/-- A value stored in `agent_outputs`: the supervisor's isinstance dispatch
distinguishes dict-shaped entries from list-of-result entries
(supervisor.py lines 365-370 and 573-576). -/
inductive OutputVal where
  | dict : AgentResult → OutputVal
  | list : List AgentResult → OutputVal
deriving Repr, DecidableEq

/-- `agent_outputs` as an insertion-ordered association list, mirroring a
Python dict keyed by agent name. -/
abbrev Outputs := List (String × OutputVal)

/-- Dict key lookup. -/
def alookup {α : Type} : List (String × α) → String → Option α
  | [], _ => none
  | (k, v) :: rest, key => if k = key then some v else alookup rest key

/-- Dict key assignment: replace in place if the key exists, else append. -/
def aset {α : Type} : List (String × α) → String → α → List (String × α)
  | [], key, v => [(key, v)]
  | (k, w) :: rest, key, v =>
      if k = key then (key, v) :: rest else (k, w) :: aset rest key v

/-- Python `key in dict`. -/
def hasKey {α : Type} (m : List (String × α)) (key : String) : Bool :=
  (alookup m key).isSome

/-- The nested `progress` dict of SupervisorState. -/
structure ProgressRec where
  current_phase : String
  completion_percentage : Nat
  phases_completed : List String
  start_time : String
  completed_at : Option String
deriving Repr, DecidableEq

/-- SupervisorState (supervisor.py lines 26-38), plus the `current_section`
key that _report_generation_supervisor adds at line 447. -/
structure SupervisorState where
  research_topic : String
  current_phase : String
  agent_outputs : Outputs
  next_agent : String
  completed_agents : List String
  requirements : List (String × String)
  user_sources : List (String × String)
  progress : ProgressRec
  errors : List String
  qa_retry_count : Nat
  current_section : String
deriving Repr, DecidableEq

/-- The initial state built by execute_workflow (supervisor.py lines 602-619). -/
def initialState (topic : String) (reqs : List (String × String))
    (startTime : String) : SupervisorState :=
  { research_topic := topic
    current_phase := "initialization"
    agent_outputs := []
    next_agent := ""
    completed_agents := []
    requirements := reqs
    user_sources := []
    progress :=
      { current_phase := "initialization"
        completion_percentage := 0
        phases_completed := []
        start_time := startTime
        completed_at := none }
    errors := []
    qa_retry_count := 0
    current_section := "" }

/-- Outcome of one agent invocation's `_execute` (the opaque LLM call):
either a structured result or a raised exception's message. -/
inductive AgentOutcome where
  | ok : AgentResult → AgentOutcome
  | err : String → AgentOutcome
deriving Repr, DecidableEq

/-- BaseAgent.process (base_agent.py lines 55-73) composed with
BaseAgent._update_state (lines 98-110): the agent CATCHES any exception from
`_execute` itself and appends "{self.name}: {message}" to the error list; on
success it ensures `outputs[self.name]` is a list and appends the result.
`process` therefore never raises.  Appending to a dict-shaped existing entry
would raise AttributeError inside the try block, which `process` also
converts to an error string. -/
def processAgent (cn : String) (outcome : AgentOutcome) (outs : Outputs)
    (errs : List String) : Outputs × List String :=
  match outcome with
  | .err e => (outs, errs ++ [cn ++ ": " ++ e])
  | .ok r =>
    match alookup outs cn with
    | none => (aset outs cn (.list [r]), errs)
    | some (.list rs) => (aset outs cn (.list (rs ++ [r])), errs)
    | some (.dict _) =>
        (outs, errs ++ [cn ++ ": 'dict' object has no attribute 'append'"])

/-- The per-agent loop body of a phase executor (e.g. supervisor.py lines
167-191): run the agent via `process` (which never raises, so the executor's
own `except` branch is unreachable for generation failures), merge outputs,
and unconditionally append the supervisor-side agent name to
`completed_agents`. -/
def runAgentStep (beh : String → AgentOutcome) (st : SupervisorState)
    (p : String × String) : SupervisorState :=
  { st with
    agent_outputs := (processAgent p.2 (beh p.1) st.agent_outputs st.errors).1
    errors := (processAgent p.2 (beh p.1) st.agent_outputs st.errors).2
    completed_agents := st.completed_agents ++ [p.1] }

/-- The whole per-phase agent loop. -/
def runAgents (pairs : List (String × String)) (beh : String → AgentOutcome)
    (s : SupervisorState) : SupervisorState :=
  pairs.foldl (runAgentStep beh) s

/-- (supervisor name, agent class name) pairs for research planning
(supervisor.py lines 161-165; class names from research_team.py). -/
def researchPlanningAgents : List (String × String) :=
  [("domain_analysis", "DomainAnalysisAgent"),
   ("literature_survey", "LiteratureSurveyAgent"),
   ("research_questions", "ResearchQuestionFormulationAgent")]

/-- Analysis phase agent names cleared on re-entry (supervisor.py line 243). -/
def analysisAgentNames : List String :=
  ["quantitative_analysis", "qualitative_analysis", "synthesis"]

/-- (supervisor name, agent class name) pairs for analysis
(supervisor.py lines 255-259; class names from analysis_team.py). -/
def analysisAgents : List (String × String) :=
  [("quantitative_analysis", "QuantitativeAnalysisAgent"),
   ("qualitative_analysis", "QualitativeAnalysisAgent"),
   ("synthesis", "SynthesisAgent")]

/-- QA phase agent names cleared on re-entry (supervisor.py line 313). -/
def qaAgentNames : List String :=
  ["peer_review", "citation_verification", "compliance_check"]

/-- (supervisor name, agent class name) pairs for quality assurance
(supervisor.py lines 319-323; class names from qa_team.py). -/
def qaAgents : List (String × String) :=
  [("peer_review", "PeerReviewAgent"),
   ("citation_verification", "CitationVerificationAgent"),
   ("compliance_check", "AcademicStandardsComplianceAgent")]

/-- Idempotent phase-name append, e.g. supervisor.py lines 195-196. -/
def appendPhaseOnce (ph : String) (l : List String) : List String :=
  if ph ∈ l then l else l ++ [ph]

/-- Phase bookkeeping at the end of an executor: idempotently record the
phase and recompute the percentage as `len(phases_completed) * 20`
(supervisor.py lines 194-198 and analogues). -/
def updatePhaseProgress (ph : String) (s : SupervisorState) : SupervisorState :=
  { s with progress :=
      { s.progress with
        phases_completed := appendPhaseOnce ph s.progress.phases_completed
        completion_percentage := (appendPhaseOnce ph s.progress.phases_completed).length * 20 } }

/-- The guarded-remove loop of a rerunnable phase (supervisor.py lines
244-246 and 314-316): `if name in completed: completed.remove(name)` —
Python list.remove drops the FIRST occurrence only. -/
def clearAgentNames (names : List String) (completed : List String) : List String :=
  names.foldl (fun acc n => if n ∈ acc then acc.erase n else acc) completed

/-- Sets the phase markers at the top of an executor. -/
def setPhase (ph : String) (s : SupervisorState) : SupervisorState :=
  { s with
    current_phase := ph
    progress := { s.progress with current_phase := ph } }

/-- The clearing step at the start of _analysis_supervisor (supervisor.py
lines 242-246); it touches only `completed_agents`. -/
def analysisClearStep (s : SupervisorState) : SupervisorState :=
  { s with completed_agents := clearAgentNames analysisAgentNames s.completed_agents }

/-- _research_planning_supervisor (supervisor.py lines 143-206). -/
def research_planning_supervisor (beh : String → AgentOutcome)
    (s : SupervisorState) : SupervisorState :=
  updatePhaseProgress "research_planning"
    (runAgents researchPlanningAgents beh (setPhase "research_planning" s))

/-- _data_collection_supervisor (supervisor.py lines 208-229): no agents;
stores the externally supplied user content, records the phase. -/
def data_collection_supervisor (userContent : List (String × String))
    (s : SupervisorState) : SupervisorState :=
  updatePhaseProgress "data_collection"
    { setPhase "data_collection" s with user_sources := userContent }

/-- _analysis_supervisor (supervisor.py lines 231-299). -/
def analysis_supervisor (beh : String → AgentOutcome)
    (s : SupervisorState) : SupervisorState :=
  updatePhaseProgress "analysis"
    (runAgents analysisAgents beh (analysisClearStep (setPhase "analysis" s)))

/-- The executor-side dispatch on `agent_outputs["PeerReviewAgent"]`
(supervisor.py lines 364-370: dict first, then non-empty list's element 0,
else an empty dict). -/
def qa_peer_review_result (v : OutputVal) : AgentResult :=
  match v with
  | .dict r => r
  | .list (r :: _) => r
  | .list [] => {}

/-- The retry-count update block at the end of _quality_assurance_supervisor
(supervisor.py lines 360-388): read the peer-review quality score (default
7.0) and increment `qa_retry_count` iff it is below 6.0 and the count is
still below 3. -/
def qa_retry_update (outs : Outputs) (retry : Nat) : Nat :=
  match alookup outs "PeerReviewAgent" with
  | none => retry
  | some v =>
      if (qa_peer_review_result v).quality_score.getD 7 < 6 ∧ retry < 3 then
        retry + 1
      else retry

/-- _quality_assurance_supervisor (supervisor.py lines 301-389): clear this
phase's completed names, run the three QA agents, record the phase, then
apply the retry-count update to the post-run outputs. -/
def quality_assurance_supervisor (beh : String → AgentOutcome)
    (s : SupervisorState) : SupervisorState :=
  let s1 := updatePhaseProgress "quality_assurance"
    (runAgents qaAgents beh
      { setPhase "quality_assurance" s with
        completed_agents := clearAgentNames qaAgentNames s.completed_agents })
  { s1 with qa_retry_count := qa_retry_update s1.agent_outputs s1.qa_retry_count }

/-- Outcome of one EditorAgent invocation (generation_team.py lines
567-601): `no_action` result when no QA feedback exists, or an
`improvement_guidelines` write (to its own key) plus a result, or a raised
exception message. -/
inductive EditorOutcome where
  | noFeedback : AgentResult → EditorOutcome
  | ok : AgentResult → AgentResult → EditorOutcome
  | err : String → EditorOutcome
deriving Repr, DecidableEq

/-- _editing_supervisor (supervisor.py lines 391-431): run the editor via
`process` (exceptions from `_execute` are caught inside `process`, so
"editor" is appended to `completed_agents` in every case and editing errors
are recorded as "EditorAgent: ..."); the phase list is NOT extended, only
the percentage is recomputed.  The editor writes only the
"improvement_guidelines" and "EditorAgent" output keys. -/
def editing_supervisor (eo : EditorOutcome) (s : SupervisorState) : SupervisorState :=
  let s1 := setPhase "editing" s
  let s2 :=
    match eo with
    | .noFeedback r =>
        let pr := processAgent "EditorAgent" (.ok r) s1.agent_outputs s1.errors
        { s1 with agent_outputs := pr.1, errors := pr.2,
                  completed_agents := s1.completed_agents ++ ["editor"] }
    | .ok g r =>
        let outs1 := aset s1.agent_outputs "improvement_guidelines" (.dict g)
        let pr := processAgent "EditorAgent" (.ok r) outs1 s1.errors
        { s1 with agent_outputs := pr.1, errors := pr.2,
                  completed_agents := s1.completed_agents ++ ["editor"] }
    | .err e =>
        let pr := processAgent "EditorAgent" (.err e) s1.agent_outputs s1.errors
        { s1 with agent_outputs := pr.1, errors := pr.2,
                  completed_agents := s1.completed_agents ++ ["editor"] }
  { s2 with progress :=
      { s2.progress with
        completion_percentage := s2.progress.phases_completed.length * 20 } }

/-- The six report sections written in order (supervisor.py lines 441-442). -/
def sectionsToWrite : List String :=
  ["introduction", "literature_review", "methodology",
   "results", "discussion", "conclusion"]

/-- The per-section loop body of _report_generation_supervisor
(supervisor.py lines 444-470): set `current_section` and run the section
writer (no `completed_agents` append). -/
def sectionStep (beh : String → AgentOutcome) (st : SupervisorState)
    (sec : String) : SupervisorState :=
  { st with
    current_section := sec
    agent_outputs := (processAgent "SectionWritingAgent" (beh sec) st.agent_outputs st.errors).1
    errors := (processAgent "SectionWritingAgent" (beh sec) st.agent_outputs st.errors).2 }

/-- _report_generation_supervisor (supervisor.py lines 433-519): one
SectionWritingAgent invocation per section (none of which appends to
`completed_agents`), then the coherence agent, then final assembly; record
the phase, force the percentage to 100 and stamp `completed_at`. -/
def report_generation_supervisor (beh : String → AgentOutcome) (now : String)
    (s : SupervisorState) : SupervisorState :=
  let s1 := setPhase "report_generation" s
  let s2 := sectionsToWrite.foldl (sectionStep beh) s1
  let pr1 := processAgent "CoherenceIntegrationAgent" (beh "coherence")
    s2.agent_outputs s2.errors
  let s3 := { s2 with agent_outputs := pr1.1, errors := pr1.2 }
  let pr2 := processAgent "FinalAssemblyAgent" (beh "final_assembly")
    s3.agent_outputs s3.errors
  let s4 := { s3 with agent_outputs := pr2.1, errors := pr2.2 }
  { s4 with progress :=
      { s4.progress with
        phases_completed := appendPhaseOnce "report_generation" s4.progress.phases_completed
        completion_percentage := 100
        completed_at := some now } }

/-- Required outputs checked after research planning (supervisor.py line 529). -/
def researchPlanningRequired : List String :=
  ["DomainAnalysisAgent", "LiteratureSurveyAgent", "ResearchQuestionFormulationAgent"]

/-- Required outputs checked after analysis (supervisor.py line 549). -/
def analysisRequired : List String :=
  ["QuantitativeAnalysisAgent", "QualitativeAnalysisAgent", "SynthesisAgent"]

/-- _should_continue_to_data_collection (supervisor.py lines 521-533).
Note the control flow: ANY non-empty error list short-circuits to
"end"/"retry" before the required-outputs check is reached. -/
def should_continue_to_data_collection (s : SupervisorState) : String :=
  if s.errors ≠ [] then
    if s.errors.length > 3 then "end" else "retry"
  else if researchPlanningRequired.all (fun k => hasKey s.agent_outputs k) then
    "continue"
  else "retry"

/-- _should_continue_to_analysis (supervisor.py lines 535-541). -/
def should_continue_to_analysis (s : SupervisorState) : String :=
  if s.errors ≠ [] ∧ s.errors.length > 5 then "end" else "continue"

/-- _should_continue_to_qa (supervisor.py lines 543-553). -/
def should_continue_to_qa (s : SupervisorState) : String :=
  if s.errors ≠ [] ∧ s.errors.length > 7 then "end"
  else if analysisRequired.all (fun k => hasKey s.agent_outputs k) then "continue"
  else "retry"

/-- _should_continue_to_generation (supervisor.py lines 555-593).  The edge
dispatch on the PeerReviewAgent entry checks the non-empty list case first
(reading element 0), then the dict case, and falls open to "continue" on any
other shape. -/
def should_continue_to_generation (s : SupervisorState) : String :=
  if s.errors ≠ [] ∧ s.errors.length > 10 then "end"
  else if s.qa_retry_count ≥ 3 then "continue"
  else
    match alookup s.agent_outputs "PeerReviewAgent" with
    | none => "continue"
    | some (.list (r :: _)) =>
        if r.quality_score.getD 7 < 6 ∧ s.qa_retry_count < 3 then "edit"
        else "continue"
    | some (.dict r) =>
        if r.quality_score.getD 7 < 6 ∧ s.qa_retry_count < 3 then "edit"
        else "continue"
    | some (.list []) => "continue"

/-- The LangGraph nodes of the workflow (supervisor.py lines 85-90), with
`terminal` standing for the END sentinel. -/
inductive Node where
  | research_planning
  | data_collection
  | analysis
  | quality_assurance
  | editing
  | report_generation
  | terminal
deriving Repr, DecidableEq

/-- Conditional-edge map after research_planning (supervisor.py lines 93-101). -/
def routeResearchPlanning (d : String) : Node :=
  if d = "continue" then .data_collection
  else if d = "retry" then .research_planning
  else .terminal

/-- Conditional-edge map after data_collection (supervisor.py lines 103-111). -/
def routeDataCollection (d : String) : Node :=
  if d = "continue" then .analysis
  else if d = "retry" then .data_collection
  else .terminal

/-- Conditional-edge map after analysis (supervisor.py lines 113-121). -/
def routeAnalysis (d : String) : Node :=
  if d = "continue" then .quality_assurance
  else if d = "retry" then .analysis
  else .terminal

/-- Conditional-edge map after quality_assurance (supervisor.py lines 123-131). -/
def routeQualityAssurance (d : String) : Node :=
  if d = "continue" then .report_generation
  else if d = "edit" then .editing
  else .terminal

/-- One execution step of the compiled graph: run the node's executor on the
current state (with some behaviour of the opaque agents for this pass), then
follow the edge chosen by the node's transition predicate.  `editing`
loops back to `analysis` unconditionally (line 134) and `report_generation`
goes to END (line 136). -/
inductive Step : Node → SupervisorState → Node → SupervisorState → Prop where
  | research_planning (beh : String → AgentOutcome) (s : SupervisorState) :
      Step .research_planning s
        (routeResearchPlanning
          (should_continue_to_data_collection (research_planning_supervisor beh s)))
        (research_planning_supervisor beh s)
  | data_collection (uc : List (String × String)) (s : SupervisorState) :
      Step .data_collection s
        (routeDataCollection
          (should_continue_to_analysis (data_collection_supervisor uc s)))
        (data_collection_supervisor uc s)
  | analysis (beh : String → AgentOutcome) (s : SupervisorState) :
      Step .analysis s
        (routeAnalysis (should_continue_to_qa (analysis_supervisor beh s)))
        (analysis_supervisor beh s)
  | quality_assurance (beh : String → AgentOutcome) (s : SupervisorState) :
      Step .quality_assurance s
        (routeQualityAssurance
          (should_continue_to_generation (quality_assurance_supervisor beh s)))
        (quality_assurance_supervisor beh s)
  | editing (eo : EditorOutcome) (s : SupervisorState) :
      Step .editing s .analysis (editing_supervisor eo s)
  | report_generation (beh : String → AgentOutcome) (now : String) (s : SupervisorState) :
      Step .report_generation s .terminal (report_generation_supervisor beh now s)

/-- Reachable graph configurations: the entry point is `research_planning`
on the freshly initialised state (supervisor.py lines 139 and 602-619). -/
inductive Reachable : Node → SupervisorState → Prop where
  | init (topic : String) (reqs : List (String × String)) (startTime : String) :
      Reachable .research_planning (initialState topic reqs startTime)
  | step {n : Node} {s : SupervisorState} {n' : Node} {s' : SupervisorState} :
      Reachable n s → Step n s n' s' → Reachable n' s'

/-- A field value of the WorkflowResult dict returned by execute_workflow. -/
inductive ResultVal where
  | str : String → ResultVal
  | strList : List String → ResultVal
  | outputs : Outputs → ResultVal
  | progress : ProgressRec → ResultVal
deriving Repr, DecidableEq

/-- The WorkflowResult dict, as an ordered key/value record. -/
abbrev WorkflowResult := List (String × ResultVal)

/-- The result dict built on the normal path of execute_workflow
(supervisor.py lines 657-671). -/
def workflow_success_result (topic threadId : String)
    (finalState : SupervisorState) : WorkflowResult :=
  [("status", .str (if finalState.errors = [] then "completed" else "completed_with_errors")),
   ("research_topic", .str topic),
   ("agent_outputs", .outputs finalState.agent_outputs),
   ("progress", .progress finalState.progress),
   ("errors", .strList finalState.errors),
   ("completed_agents", .strList finalState.completed_agents),
   ("thread_id", .str threadId)]

/-- The result dict built when an exception escapes the workflow machinery
(supervisor.py lines 679-689).  The `progress` value is the progress record
of the initial-state object at the time of the exception (shared by
reference with the run), passed here abstractly. -/
def workflow_failed_result (topic threadId msg : String)
    (prog : ProgressRec) : WorkflowResult :=
  [("status", .str "failed"),
   ("error", .str msg),
   ("research_topic", .str topic),
   ("agent_outputs", .outputs []),
   ("progress", .progress prog),
   ("errors", .strList [msg]),
   ("thread_id", .str threadId)]

/-- Outcome of driving the compiled graph to completion: either a final
state or an escaped exception's message. -/
inductive DriverOutcome where
  | normal : SupervisorState → DriverOutcome
  | exn : String → DriverOutcome

/-- The WorkflowResult execute_workflow hands back to the caller, as a
function of how the drive ended (supervisor.py lines 624-689). -/
def execute_workflow_result (topic threadId : String) (prog : ProgressRec) :
    DriverOutcome → WorkflowResult
  | .normal finalState => workflow_success_result topic threadId finalState
  | .exn msg => workflow_failed_result topic threadId msg prog

/-! ### Shape lemmas for the executors -/

theorem runAgents_shape (ps : List (String × String)) (beh : String → AgentOutcome)
    (s : SupervisorState) :
    ∃ o e, runAgents ps beh s =
      { s with agent_outputs := o, errors := e,
               completed_agents := s.completed_agents ++ ps.map Prod.fst } := by
  induction ps generalizing s with
  | nil => exact ⟨s.agent_outputs, s.errors, by simp [runAgents]⟩
  | cons p ps ih =>
      obtain ⟨o, e, he⟩ := ih (runAgentStep beh s p)
      refine ⟨o, e, ?_⟩
      rw [runAgents, List.foldl_cons, ← runAgents, he]
      simp [runAgentStep, List.append_assoc]

theorem sectionFold_shape (secs : List String) (beh : String → AgentOutcome)
    (s : SupervisorState) :
    ∃ o e c, secs.foldl (sectionStep beh) s =
      { s with agent_outputs := o, errors := e, current_section := c } := by
  induction secs generalizing s with
  | nil => exact ⟨s.agent_outputs, s.errors, s.current_section, by simp⟩
  | cons sec secs ih =>
      obtain ⟨o, e, c, he⟩ := ih (sectionStep beh s sec)
      exact ⟨o, e, c, by rw [List.foldl_cons, he]; simp [sectionStep]⟩

theorem research_planning_fields (beh : String → AgentOutcome) (s : SupervisorState) :
    (research_planning_supervisor beh s).qa_retry_count = s.qa_retry_count ∧
    (research_planning_supervisor beh s).progress.phases_completed
      = appendPhaseOnce "research_planning" s.progress.phases_completed ∧
    (research_planning_supervisor beh s).completed_agents
      = s.completed_agents ++ ["domain_analysis", "literature_survey", "research_questions"] := by
  obtain ⟨o, e, he⟩ := runAgents_shape researchPlanningAgents beh (setPhase "research_planning" s)
  unfold research_planning_supervisor
  rw [he]
  simp [updatePhaseProgress, setPhase, researchPlanningAgents]

theorem data_collection_fields (uc : List (String × String)) (s : SupervisorState) :
    (data_collection_supervisor uc s).qa_retry_count = s.qa_retry_count ∧
    (data_collection_supervisor uc s).progress.phases_completed
      = appendPhaseOnce "data_collection" s.progress.phases_completed ∧
    (data_collection_supervisor uc s).completed_agents = s.completed_agents := by
  simp [data_collection_supervisor, updatePhaseProgress, setPhase]

theorem analysis_fields (beh : String → AgentOutcome) (s : SupervisorState) :
    (analysis_supervisor beh s).qa_retry_count = s.qa_retry_count ∧
    (analysis_supervisor beh s).progress.phases_completed
      = appendPhaseOnce "analysis" s.progress.phases_completed ∧
    (analysis_supervisor beh s).completed_agents
      = clearAgentNames analysisAgentNames s.completed_agents
        ++ ["quantitative_analysis", "qualitative_analysis", "synthesis"] := by
  obtain ⟨o, e, he⟩ := runAgents_shape analysisAgents beh
    (analysisClearStep (setPhase "analysis" s))
  unfold analysis_supervisor
  rw [he]
  simp [updatePhaseProgress, setPhase, analysisClearStep, analysisAgents]

theorem quality_assurance_fields (beh : String → AgentOutcome) (s : SupervisorState) :
    (∃ o, (quality_assurance_supervisor beh s).qa_retry_count
        = qa_retry_update o s.qa_retry_count) ∧
    (quality_assurance_supervisor beh s).progress.phases_completed
      = appendPhaseOnce "quality_assurance" s.progress.phases_completed ∧
    (quality_assurance_supervisor beh s).completed_agents
      = clearAgentNames qaAgentNames s.completed_agents
        ++ ["peer_review", "citation_verification", "compliance_check"] := by
  obtain ⟨o, e, he⟩ := runAgents_shape qaAgents beh
    { setPhase "quality_assurance" s with
      completed_agents := clearAgentNames qaAgentNames s.completed_agents }
  unfold quality_assurance_supervisor
  rw [he]
  refine ⟨⟨o, ?_⟩, ?_, ?_⟩ <;>
    simp [updatePhaseProgress, setPhase, qaAgents]

theorem editing_fields (eo : EditorOutcome) (s : SupervisorState) :
    (editing_supervisor eo s).qa_retry_count = s.qa_retry_count ∧
    (editing_supervisor eo s).progress.phases_completed = s.progress.phases_completed ∧
    (editing_supervisor eo s).completed_agents = s.completed_agents ++ ["editor"] := by
  cases eo <;> simp [editing_supervisor, setPhase]

theorem report_generation_fields (beh : String → AgentOutcome) (now : String)
    (s : SupervisorState) :
    (report_generation_supervisor beh now s).qa_retry_count = s.qa_retry_count ∧
    (report_generation_supervisor beh now s).progress.phases_completed
      = appendPhaseOnce "report_generation" s.progress.phases_completed ∧
    (report_generation_supervisor beh now s).completed_agents = s.completed_agents := by
  obtain ⟨o, e, c, he⟩ := sectionFold_shape sectionsToWrite beh (setPhase "report_generation" s)
  simp only [setPhase] at he
  simp [report_generation_supervisor, he, setPhase]

/-! ### Invariants of reachable configurations -/

/-- The five phases ever recorded in `progress.phases_completed`. -/
def phaseNames : List String :=
  ["research_planning", "data_collection", "analysis",
   "quality_assurance", "report_generation"]

theorem mem_appendPhaseOnce {p ph : String} {l : List String}
    (h : p ∈ appendPhaseOnce ph l) : p ∈ l ∨ p = ph := by
  unfold appendPhaseOnce at h
  split at h
  · exact Or.inl h
  · rcases List.mem_append.1 h with h | h
    · exact Or.inl h
    · exact Or.inr (List.mem_singleton.1 h)

theorem nodup_appendPhaseOnce {ph : String} {l : List String} (h : l.Nodup) :
    (appendPhaseOnce ph l).Nodup := by
  unfold appendPhaseOnce
  split
  · exact h
  · rename_i hph
    exact List.nodup_append.2
      ⟨h, List.nodup_singleton ph, fun a ha hb => hph (List.mem_singleton.1 hb ▸ ha)⟩

theorem qa_retry_update_le (outs : Outputs) {r : Nat} (h : r ≤ 3) :
    qa_retry_update outs r ≤ 3 := by
  unfold qa_retry_update
  split
  · exact h
  · split
    · rename_i hc
      omega
    · exact h

theorem guard_erase (acc : List String) (n : String) :
    (if n ∈ acc then acc.erase n else acc) = acc.erase n := by
  split
  · rfl
  · exact (List.erase_of_not_mem (by assumption)).symm

theorem clearAgentNames_cons (n : String) (ns : List String) (c : List String) :
    clearAgentNames (n :: ns) c = clearAgentNames ns (if n ∈ c then c.erase n else c) := rfl

theorem clearAgentNames_eq_erase (names c : List String) :
    clearAgentNames names c = names.foldl (fun acc x => acc.erase x) c := by
  induction names generalizing c with
  | nil => rfl
  | cons n ns ih => rw [clearAgentNames_cons, guard_erase, ih, List.foldl_cons]

theorem count_clear_analysis (c : List String) (n : String)
    (hn : n ∈ analysisAgentNames) (h : c.count n ≤ 1) :
    (clearAgentNames analysisAgentNames c).count n = 0 := by
  rw [clearAgentNames_eq_erase]
  simp only [analysisAgentNames, List.foldl_cons, List.foldl_nil]
  simp only [analysisAgentNames, List.mem_cons, List.not_mem_nil, or_false] at hn
  rcases hn with rfl | rfl | rfl
  · rw [List.count_erase_of_ne (by decide), List.count_erase_of_ne (by decide),
      List.count_erase_self]
    omega
  · rw [List.count_erase_of_ne (by decide), List.count_erase_self,
      List.count_erase_of_ne (by decide)]
    omega
  · rw [List.count_erase_self, List.count_erase_of_ne (by decide),
      List.count_erase_of_ne (by decide)]
    omega

theorem count_clear_qa (c : List String) (n : String) (hn : n ∈ analysisAgentNames) :
    (clearAgentNames qaAgentNames c).count n = c.count n := by
  rw [clearAgentNames_eq_erase]
  simp only [qaAgentNames, List.foldl_cons, List.foldl_nil]
  simp only [analysisAgentNames, List.mem_cons, List.not_mem_nil, or_false] at hn
  rcases hn with rfl | rfl | rfl <;>
    rw [List.count_erase_of_ne (by decide), List.count_erase_of_ne (by decide),
      List.count_erase_of_ne (by decide)]

/-- The state invariant maintained by every phase executor: the retry
counter stays within the budget, the completed-phase list stays a
duplicate-free sublist of the five phase names, and each analysis agent
name occurs at most once among the completed agents. -/
def Inv (s : SupervisorState) : Prop :=
  s.qa_retry_count ≤ 3 ∧
  (∀ p ∈ s.progress.phases_completed, p ∈ phaseNames) ∧
  s.progress.phases_completed.Nodup ∧
  (∀ n ∈ analysisAgentNames, s.completed_agents.count n ≤ 1)

theorem count_append_le_one {c : List String} {n : String} (h : c.count n ≤ 1)
    (l : List String) (hl : l.count n = 0) : (c ++ l).count n ≤ 1 := by
  rw [List.count_append, hl]
  omega

theorem inv_of_phase_step {s s' : SupervisorState} (ph : String)
    (hph : ph ∈ phaseNames)
    (hr : s'.qa_retry_count ≤ 3)
    (hp : s'.progress.phases_completed = appendPhaseOnce ph s.progress.phases_completed)
    (hc : ∀ n ∈ analysisAgentNames, s'.completed_agents.count n ≤ 1)
    (hinv : Inv s) : Inv s' := by
  obtain ⟨h1, h2, h3, h4⟩ := hinv
  refine ⟨hr, ?_, ?_, hc⟩
  · rw [hp]
    intro p hpm
    rcases mem_appendPhaseOnce hpm with h | rfl
    · exact h2 p h
    · exact hph
  · rw [hp]
    exact nodup_appendPhaseOnce h3

theorem step_preserves_inv {n : Node} {s : SupervisorState} {n' : Node}
    {s' : SupervisorState} (hstep : Step n s n' s') (hinv : Inv s) : Inv s' := by
  obtain ⟨h1, h2, h3, h4⟩ := hinv
  cases hstep with
  | research_planning beh s =>
      obtain ⟨hr, hp, hc⟩ := research_planning_fields beh s
      refine inv_of_phase_step "research_planning" (by decide) (hr ▸ h1) hp ?_ ⟨h1, h2, h3, h4⟩
      intro n hn
      rw [hc]
      refine count_append_le_one (h4 n hn) _ ?_
      simp only [analysisAgentNames, List.mem_cons, List.not_mem_nil, or_false] at hn
      rcases hn with rfl | rfl | rfl <;> decide
  | data_collection uc s =>
      obtain ⟨hr, hp, hc⟩ := data_collection_fields uc s
      refine inv_of_phase_step "data_collection" (by decide) (hr ▸ h1) hp ?_ ⟨h1, h2, h3, h4⟩
      intro n hn
      rw [hc]
      exact h4 n hn
  | analysis beh s =>
      obtain ⟨hr, hp, hc⟩ := analysis_fields beh s
      refine inv_of_phase_step "analysis" (by decide) (hr ▸ h1) hp ?_ ⟨h1, h2, h3, h4⟩
      intro n hn
      rw [hc, List.count_append, count_clear_analysis s.completed_agents n hn (h4 n hn)]
      simp only [analysisAgentNames, List.mem_cons, List.not_mem_nil, or_false] at hn
      rcases hn with rfl | rfl | rfl <;> decide
  | quality_assurance beh s =>
      obtain ⟨⟨o, hr⟩, hp, hc⟩ := quality_assurance_fields beh s
      refine inv_of_phase_step "quality_assurance" (by decide)
        (hr ▸ qa_retry_update_le o h1) hp ?_ ⟨h1, h2, h3, h4⟩
      intro n hn
      rw [hc, List.count_append, count_clear_qa s.completed_agents n hn]
      have hz : List.count n ["peer_review", "citation_verification", "compliance_check"] = 0 := by
        simp only [analysisAgentNames, List.mem_cons, List.not_mem_nil, or_false] at hn
        rcases hn with rfl | rfl | rfl <;> decide
      rw [hz]
      have := h4 n hn
      omega
  | editing eo s =>
      obtain ⟨hr, hp, hc⟩ := editing_fields eo s
      refine ⟨hr ▸ h1, hp ▸ h2, hp ▸ h3, ?_⟩
      intro n hn
      rw [hc]
      refine count_append_le_one (h4 n hn) _ ?_
      simp only [analysisAgentNames, List.mem_cons, List.not_mem_nil, or_false] at hn
      rcases hn with rfl | rfl | rfl <;> decide
  | report_generation beh now s =>
      obtain ⟨hr, hp, hc⟩ := report_generation_fields beh now s
      refine inv_of_phase_step "report_generation" (by decide) (hr ▸ h1) hp ?_ ⟨h1, h2, h3, h4⟩
      intro n hn
      rw [hc]
      exact h4 n hn

theorem reachable_inv {n : Node} {s : SupervisorState} (h : Reachable n s) : Inv s := by
  induction h with
  | init topic reqs startTime =>
      refine ⟨by simp [initialState], ?_, ?_, ?_⟩ <;>
        simp [initialState]
  | step hr hs ih =>
      exact step_preserves_inv hs ih

/-! ### Lookup and update lemmas -/

theorem alookup_aset_self {α : Type} (m : List (String × α)) (k : String) (v : α) :
    alookup (aset m k v) k = some v := by
  induction m with
  | nil => simp [aset, alookup]
  | cons p rest ih =>
      by_cases h : p.1 = k
      · simp [aset, h, alookup]
      · simp [aset, h, alookup, ih]

theorem alookup_aset_ne {α : Type} (m : List (String × α)) (k k' : String) (v : α)
    (h : k ≠ k') : alookup (aset m k v) k' = alookup m k' := by
  induction m with
  | nil => simp [aset, alookup, h]
  | cons p rest ih =>
      by_cases hp : p.1 = k
      · simp [aset, hp, alookup, h]
      · by_cases hp' : p.1 = k'
        · simp [aset, hp, alookup, hp', Ne.symm h]
        · simp [aset, hp, alookup, hp', ih]

/-- The list already stored under a key, as BaseAgent._update_state sees it
(empty when the key is absent). -/
def listPrev (outs : Outputs) (cn : String) : List AgentResult :=
  match alookup outs cn with
  | some (.list rs) => rs
  | _ => []

theorem processAgent_ok (cn : String) (r : AgentResult) (outs : Outputs)
    (errs : List String) (hnd : ∀ q, alookup outs cn ≠ some (OutputVal.dict q)) :
    processAgent cn (.ok r) outs errs
      = (aset outs cn (.list (listPrev outs cn ++ [r])), errs) := by
  unfold processAgent listPrev
  rcases h : alookup outs cn with _ | v
  · simp
  · cases v with
    | dict q => exact absurd h (hnd q)
    | list rs => simp

theorem processAgent_err (cn : String) (m : String) (outs : Outputs)
    (errs : List String) :
    processAgent cn (.err m) outs errs = (outs, errs ++ [cn ++ ": " ++ m]) := rfl

theorem runAgentStep_ok (beh : String → AgentOutcome) (st : SupervisorState)
    (p : String × String) (r : AgentResult) (hb : beh p.1 = .ok r)
    (hnd : ∀ q, alookup st.agent_outputs p.2 ≠ some (OutputVal.dict q)) :
    runAgentStep beh st p
      = { st with
          agent_outputs := aset st.agent_outputs p.2
            (.list (listPrev st.agent_outputs p.2 ++ [r]))
          completed_agents := st.completed_agents ++ [p.1] } := by
  simp [runAgentStep, hb, processAgent_ok p.2 r st.agent_outputs st.errors hnd]

theorem runAgentStep_err (beh : String → AgentOutcome) (st : SupervisorState)
    (p : String × String) (m : String) (hb : beh p.1 = .err m) :
    runAgentStep beh st p
      = { st with
          errors := st.errors ++ [p.2 ++ ": " ++ m]
          completed_agents := st.completed_agents ++ [p.1] } := by
  simp [runAgentStep, hb, processAgent_err]

theorem updatePhaseProgress_outputs (ph : String) (s : SupervisorState) :
    (updatePhaseProgress ph s).agent_outputs = s.agent_outputs := rfl

theorem updatePhaseProgress_errors (ph : String) (s : SupervisorState) :
    (updatePhaseProgress ph s).errors = s.errors := rfl

theorem analysis_run_eq (beh : String → AgentOutcome) (s : SupervisorState) :
    analysis_supervisor beh s = updatePhaseProgress "analysis"
      (runAgentStep beh (runAgentStep beh (runAgentStep beh
        (analysisClearStep (setPhase "analysis" s))
        ("quantitative_analysis", "QuantitativeAnalysisAgent"))
        ("qualitative_analysis", "QualitativeAnalysisAgent"))
        ("synthesis", "SynthesisAgent")) := rfl

/-! ### Erase versus filter, for the re-entry clearing step -/

theorem erase_eq_filter_of_count_le_one {l : List String} {a : String}
    (h : l.count a ≤ 1) :
    l.erase a = l.filter (fun b => decide (b ≠ a)) := by
  induction l with
  | nil => rfl
  | cons x xs ih =>
      by_cases hxa : x = a
      · subst hxa
        have hcount : xs.count x = 0 := by
          have hc := List.count_cons_self x xs
          omega
        have hnot : x ∉ xs := by
          rwa [← List.count_eq_zero]
        rw [List.erase_cons_head, List.filter_cons_of_neg (by simp)]
        rw [List.filter_eq_self.mpr]
        intro b hb
        simp only [decide_eq_true_eq]
        exact fun hba => hnot (hba ▸ hb)
      · rw [List.erase_cons_tail (by simpa using hxa),
          List.filter_cons_of_pos (by simpa using hxa), ih]
        have hc := List.count_cons_of_ne (fun hax => hxa hax.symm) xs
        omega

theorem clear_analysis_eq_filter (c : List String)
    (h : ∀ n ∈ analysisAgentNames, c.count n ≤ 1) :
    clearAgentNames analysisAgentNames c
      = c.filter (fun a => decide (a ∉ analysisAgentNames)) := by
  have h1 := h "quantitative_analysis" (by decide)
  have h2 := h "qualitative_analysis" (by decide)
  have h3 := h "synthesis" (by decide)
  rw [clearAgentNames_eq_erase]
  simp only [analysisAgentNames, List.foldl_cons, List.foldl_nil]
  rw [erase_eq_filter_of_count_le_one h1]
  rw [erase_eq_filter_of_count_le_one
    (le_trans (List.Sublist.count_le (List.filter_sublist _) _) h2)]
  rw [erase_eq_filter_of_count_le_one
    (le_trans (List.Sublist.count_le (List.filter_sublist _) _)
      (le_trans (List.Sublist.count_le (List.filter_sublist _) _) h3))]
  rw [List.filter_filter, List.filter_filter]
  apply List.filter_congr
  intro a _
  by_cases e1 : a = "quantitative_analysis" <;>
    by_cases e2 : a = "qualitative_analysis" <;>
      by_cases e3 : a = "synthesis" <;>
        simp [e1, e2, e3, analysisAgentNames]

/-! ### Concrete runs used as witnesses and counterexamples -/

/-- All agents succeed with a plain result. -/
def scenOk : String → AgentOutcome := fun _ => .ok { timestamp := 1 }

/-- The peer-review result every QA pass of the low-score scenario returns. -/
def prLow : AgentResult := { timestamp := 1, quality_score := some 4 }

/-- QA behaviour: peer review scores 4.0, the other agents succeed. -/
def scenQA : String → AgentOutcome := fun a =>
  if a = "peer_review" then .ok prLow else .ok { timestamp := 1 }

def scen0 : SupervisorState := initialState "t" [] "0"

def scen1 : SupervisorState := research_planning_supervisor scenOk scen0

def scen2 : SupervisorState := data_collection_supervisor [] scen1

def scen3 : SupervisorState := analysis_supervisor scenOk scen2

def scen4 : SupervisorState := quality_assurance_supervisor scenQA scen3

def scen5 : SupervisorState :=
  editing_supervisor (.ok { timestamp := 2 } { timestamp := 2 }) scen4

def scen6 : SupervisorState := analysis_supervisor scenOk scen5

def scen7 : SupervisorState := quality_assurance_supervisor scenQA scen6

def scen8 : SupervisorState :=
  editing_supervisor (.ok { timestamp := 3 } { timestamp := 3 }) scen7

def scen9 : SupervisorState := analysis_supervisor scenOk scen8

def scen10 : SupervisorState := quality_assurance_supervisor scenQA scen9

/-- The low-score run follows the graph's edges: each listed configuration
is reachable from the initial one. -/
theorem scen4_reachable : Reachable .editing scen4 := by
  have h0 : Reachable .research_planning scen0 := Reachable.init "t" [] "0"
  have h1 := Reachable.step h0 (Step.research_planning scenOk scen0)
  rw [show routeResearchPlanning
      (should_continue_to_data_collection (research_planning_supervisor scenOk scen0))
      = Node.data_collection by decide] at h1
  have h2 := Reachable.step h1 (Step.data_collection [] scen1)
  rw [show routeDataCollection
      (should_continue_to_analysis (data_collection_supervisor [] scen1))
      = Node.analysis by decide] at h2
  have h3 := Reachable.step h2 (Step.analysis scenOk scen2)
  rw [show routeAnalysis (should_continue_to_qa (analysis_supervisor scenOk scen2))
      = Node.quality_assurance by decide] at h3
  have h4 := Reachable.step h3 (Step.quality_assurance scenQA scen3)
  rw [show routeQualityAssurance
      (should_continue_to_generation (quality_assurance_supervisor scenQA scen3))
      = Node.editing by decide] at h4
  exact h4

/-- A state whose three research-planning outputs are present while one
error has been recorded. -/
def errState : SupervisorState :=
  { initialState "t" [] "0" with
    errors := ["e1"]
    agent_outputs :=
      [("DomainAnalysisAgent", .list [{ timestamp := 1 }]),
       ("LiteratureSurveyAgent", .list [{ timestamp := 1 }]),
       ("ResearchQuestionFormulationAgent", .list [{ timestamp := 1 }])] }

/-- A state at the retry cap with eleven recorded errors. -/
def overState : SupervisorState :=
  { initialState "t" [] "0" with
    errors := ["e1", "e2", "e3", "e4", "e5", "e6", "e7", "e8", "e9", "e10", "e11"]
    qa_retry_count := 3 }

/-- A state at the retry cap with few errors and a low stored score. -/
def capState : SupervisorState :=
  { initialState "t" [] "0" with
    agent_outputs := [("PeerReviewAgent", .list [prLow])]
    qa_retry_count := 3 }

/-! ### C5 -/

/-- C5: each transition predicate returns the string "end" exactly when the
error count exceeds its phase-specific threshold — 3 for research_planning,
5 for data_collection, 7 for analysis, 10 for quality_assurance — and at or
below the boundary it returns something other than "end". -/
theorem claim5_error_thresholds (s : SupervisorState) :
    (should_continue_to_data_collection s = "end" ↔ s.errors.length > 3) ∧
    (should_continue_to_analysis s = "end" ↔ s.errors.length > 5) ∧
    (should_continue_to_qa s = "end" ↔ s.errors.length > 7) ∧
    (should_continue_to_generation s = "end" ↔ s.errors.length > 10) := by
  have hne : ∀ k : Nat, s.errors.length > k → s.errors ≠ [] := by
    intro k hk hnil
    rw [hnil] at hk
    simp at hk
  refine ⟨?_, ?_, ?_, ?_⟩
  · unfold should_continue_to_data_collection
    constructor
    · intro h
      split at h
      · split at h
        · assumption
        · exact absurd h (by decide)
      · split at h <;> exact absurd h (by decide)
    · intro h10
      rw [if_pos (hne _ h10), if_pos h10]
  · unfold should_continue_to_analysis
    constructor
    · intro h
      split at h
      · rename_i hb
        exact hb.2
      · exact absurd h (by decide)
    · intro h10
      rw [if_pos ⟨hne _ h10, h10⟩]
  · unfold should_continue_to_qa
    constructor
    · intro h
      split at h
      · rename_i hb
        exact hb.2
      · split at h <;> exact absurd h (by decide)
    · intro h10
      rw [if_pos ⟨hne _ h10, h10⟩]
  · unfold should_continue_to_generation
    constructor
    · intro h
      split at h
      · rename_i hb
        exact hb.2
      · split at h
        · exact absurd h (by decide)
        · split at h
          · exact absurd h (by decide)
          · split at h <;> exact absurd h (by decide)
          · split at h <;> exact absurd h (by decide)
          · exact absurd h (by decide)
    · intro h10
      rw [if_pos ⟨hne _ h10, h10⟩]

/-! ### C3 -/

/-- C3 is false as stated: a state with one recorded error and all three
research-planning outputs present makes the predicate return "retry", not
"continue" — the code short-circuits on any non-empty error list before the
required-outputs check. -/
theorem claim3_counterexample :
    errState.errors ≠ [] ∧ errState.errors.length ≤ 3 ∧
    researchPlanningRequired.all (fun k => hasKey errState.agent_outputs k) = true ∧
    should_continue_to_data_collection errState = "retry" := by decide

/-- C3 (amended): the research_planning predicate returns "end" iff
len(errors) > 3; it returns "continue" iff errors is empty and all three
required outputs are present; whenever errors is non-empty of length at
most 3 it returns "retry" regardless of which outputs are present. -/
theorem claim3_research_planning_transition (s : SupervisorState) :
    (should_continue_to_data_collection s = "end" ↔ s.errors.length > 3) ∧
    (should_continue_to_data_collection s = "continue" ↔
      s.errors = [] ∧ researchPlanningRequired.all (fun k => hasKey s.agent_outputs k) = true) ∧
    (s.errors ≠ [] → s.errors.length ≤ 3 →
      should_continue_to_data_collection s = "retry") := by
  refine ⟨?_, ?_, ?_⟩
  · unfold should_continue_to_data_collection
    constructor
    · intro h
      split at h
      · split at h
        · assumption
        · exact absurd h (by decide)
      · split at h <;> exact absurd h (by decide)
    · intro h10
      have hnil : s.errors ≠ [] := by
        intro hnil
        rw [hnil] at h10
        simp at h10
      rw [if_pos hnil, if_pos h10]
  · unfold should_continue_to_data_collection
    constructor
    · intro h
      split at h
      · split at h <;> exact absurd h (by decide)
      · rename_i hnn
        split at h
        · rename_i hall
          refine ⟨?_, hall⟩
          by_contra hx
          exact hnn hx
        · exact absurd h (by decide)
    · rintro ⟨hnil, hall⟩
      rw [if_neg (by simp [hnil]), if_pos hall]
  · intro hnil hle
    unfold should_continue_to_data_collection
    rw [if_pos hnil, if_neg (by omega)]

/-- C3 witness: the amended theorem applied at the concrete error state. -/
theorem claim3_witness :
    errState.errors ≠ [] ∧ errState.errors.length ≤ 3 ∧
    should_continue_to_data_collection errState = "retry" :=
  ⟨by decide, by decide,
    (claim3_research_planning_transition errState).2.2 (by decide) (by decide)⟩

/-! ### C4 -/

/-- C4 is false as stated: in the concrete run whose peer review scores 4.0
on every QA pass, the transition after the THIRD quality-assurance pass
already yields "continue" (the first two yield "edit"), so the editing loop
is taken twice, not three times, and no fourth QA evaluation exists. -/
theorem claim4_counterexample :
    should_continue_to_generation scen4 = "edit" ∧
    should_continue_to_generation scen7 = "edit" ∧
    scen10.qa_retry_count = 3 ∧
    should_continue_to_generation scen10 = "continue" := by decide

/-- C4 (amended): if peer review returns quality_score 4.0 on every QA pass
of a run starting with qa_retry_count = 0, the 1st and 2nd QA transitions
yield "edit" with the counter at 1 and 2; after the 3rd QA pass the counter
is 3 and already the 3rd QA transition forces "continue" although the
stored score is still 4.0 (below 6.0) — the editing loop runs exactly
twice before the gate opens. -/
theorem claim4_quality_gate_scenario :
    scen0.qa_retry_count = 0 ∧
    scen4.qa_retry_count = 1 ∧ should_continue_to_generation scen4 = "edit" ∧
    scen7.qa_retry_count = 2 ∧ should_continue_to_generation scen7 = "edit" ∧
    scen10.qa_retry_count = 3 ∧ should_continue_to_generation scen10 = "continue" ∧
    alookup scen10.agent_outputs "PeerReviewAgent"
      = some (.list [prLow, prLow, prLow]) ∧
    prLow.quality_score.getD 7 < 6 := by decide

/-! ### C1 -/

theorem qa_supervisor_retry_eq (beh : String → AgentOutcome) (s : SupervisorState) :
    (quality_assurance_supervisor beh s).qa_retry_count
      = qa_retry_update (quality_assurance_supervisor beh s).agent_outputs
          s.qa_retry_count := by
  obtain ⟨o, e, he⟩ := runAgents_shape qaAgents beh
    { setPhase "quality_assurance" s with
      completed_agents := clearAgentNames qaAgentNames s.completed_agents }
  simp only [quality_assurance_supervisor]
  rw [he]
  simp [updatePhaseProgress, setPhase]

/-- C1 is false as stated: at the retry cap with eleven recorded errors the
quality_assurance transition predicate returns "end", not "continue". -/
theorem claim1_counterexample :
    overState.qa_retry_count ≥ 3 ∧
    should_continue_to_generation overState ≠ "continue" ∧
    should_continue_to_generation overState = "end" := by decide

/-- C1 (amended): qa_retry_count starts at 0; every phase executor other
than the quality-assurance one leaves it unchanged, and the QA executor sets
it to the pure update function of the post-run outputs (the transition
predicate only reads state, being a pure function into decision strings);
in every reachable configuration it is at most 3; and whenever it is at
least 3 the QA transition predicate never returns "edit" and, unless the
error-count abort (len(errors) > 10) forces "end", returns "continue"
regardless of the peer-review quality score. -/
theorem claim1_qa_retry_counter :
    (∀ (topic : String) (reqs : List (String × String)) (t0 : String),
      (initialState topic reqs t0).qa_retry_count = 0) ∧
    (∀ beh s, (research_planning_supervisor beh s).qa_retry_count = s.qa_retry_count) ∧
    (∀ uc s, (data_collection_supervisor uc s).qa_retry_count = s.qa_retry_count) ∧
    (∀ beh s, (analysis_supervisor beh s).qa_retry_count = s.qa_retry_count) ∧
    (∀ eo s, (editing_supervisor eo s).qa_retry_count = s.qa_retry_count) ∧
    (∀ beh now s, (report_generation_supervisor beh now s).qa_retry_count = s.qa_retry_count) ∧
    (∀ beh s, (quality_assurance_supervisor beh s).qa_retry_count
        = qa_retry_update (quality_assurance_supervisor beh s).agent_outputs
            s.qa_retry_count) ∧
    (∀ (n : Node) (s : SupervisorState), Reachable n s → s.qa_retry_count ≤ 3) ∧
    (∀ s : SupervisorState, 3 ≤ s.qa_retry_count →
      should_continue_to_generation s ≠ "edit" ∧
      (s.errors.length ≤ 10 → should_continue_to_generation s = "continue")) := by
  refine ⟨fun _ _ _ => rfl,
    fun beh s => (research_planning_fields beh s).1,
    fun uc s => (data_collection_fields uc s).1,
    fun beh s => (analysis_fields beh s).1,
    fun eo s => (editing_fields eo s).1,
    fun beh now s => (report_generation_fields beh now s).1,
    qa_supervisor_retry_eq,
    fun n s h => (reachable_inv h).1,
    ?_⟩
  intro s h3
  unfold should_continue_to_generation
  by_cases hb : s.errors ≠ [] ∧ s.errors.length > 10
  · rw [if_pos hb]
    exact ⟨by decide, fun hle => absurd hb.2 (by omega)⟩
  · rw [if_neg hb, if_pos h3]
    exact ⟨by decide, fun _ => rfl⟩

/-- C1 witness: the amended theorem applied at concrete inputs — the fresh
initial state, the reachable mid-run state after one QA pass, and a capped
state with a stored low score and few errors. -/
theorem claim1_witness :
    (initialState "t" [] "0").qa_retry_count = 0 ∧
    (research_planning_supervisor scenOk scen0).qa_retry_count = scen0.qa_retry_count ∧
    (Reachable .editing scen4 ∧ scen4.qa_retry_count ≤ 3) ∧
    (3 ≤ capState.qa_retry_count ∧
      should_continue_to_generation capState ≠ "edit" ∧
      capState.errors.length ≤ 10 ∧
      should_continue_to_generation capState = "continue") :=
  ⟨claim1_qa_retry_counter.1 "t" [] "0",
   claim1_qa_retry_counter.2.1 scenOk scen0,
   ⟨scen4_reachable,
    claim1_qa_retry_counter.2.2.2.2.2.2.2.1 Node.editing scen4 scen4_reachable⟩,
   by decide,
   (claim1_qa_retry_counter.2.2.2.2.2.2.2.2 capState (by decide)).1,
   by decide,
   (claim1_qa_retry_counter.2.2.2.2.2.2.2.2 capState (by decide)).2 (by decide)⟩

/-! ### C7 -/

/-- C7 is false as stated: the record built on the "failed" path carries no
completed_agents field at all. -/
theorem claim7_counterexample :
    alookup (workflow_failed_result "t" "th" "boom" (initialState "t" [] "0").progress)
      "completed_agents" = none ∧
    alookup (workflow_failed_result "t" "th" "boom" (initialState "t" [] "0").progress)
      "status" = some (.str "failed") := by decide

/-- C7 (amended): on the normal path the returned record carries all six
fields — status, agent_outputs, progress, errors, completed_agents and the
thread_id run identifier — with status "completed" iff errors is empty and
"completed_with_errors" otherwise; on the exception path the record carries
status "failed", the error message, agent_outputs, progress, errors and
thread_id, but no completed_agents field. -/
theorem claim7_workflow_result_fields (topic threadId msg : String)
    (prog : ProgressRec) (finalState : SupervisorState) :
    execute_workflow_result topic threadId prog (.normal finalState)
      = workflow_success_result topic threadId finalState ∧
    execute_workflow_result topic threadId prog (.exn msg)
      = workflow_failed_result topic threadId msg prog ∧
    (∀ k ∈ ["status", "agent_outputs", "progress", "errors",
            "completed_agents", "thread_id"],
      (alookup (workflow_success_result topic threadId finalState) k).isSome = true) ∧
    (finalState.errors = [] →
      alookup (workflow_success_result topic threadId finalState) "status"
        = some (.str "completed")) ∧
    (finalState.errors ≠ [] →
      alookup (workflow_success_result topic threadId finalState) "status"
        = some (.str "completed_with_errors")) ∧
    alookup (workflow_failed_result topic threadId msg prog) "status"
      = some (.str "failed") ∧
    (∀ k ∈ ["error", "agent_outputs", "progress", "errors", "thread_id"],
      (alookup (workflow_failed_result topic threadId msg prog) k).isSome = true) ∧
    alookup (workflow_failed_result topic threadId msg prog) "completed_agents"
      = none := by
  refine ⟨rfl, rfl, ?_, ?_, ?_, by simp [workflow_failed_result, alookup], ?_,
    by simp [workflow_failed_result, alookup]⟩
  · intro k hk
    fin_cases hk <;> simp [workflow_success_result, alookup]
  · intro he
    simp [workflow_success_result, alookup, he]
  · intro he
    simp [workflow_success_result, alookup, he]
  · intro k hk
    fin_cases hk <;> simp [workflow_failed_result, alookup]

/-- C7 witness: the amended theorem applied at concrete inputs, covering
the empty-errors success status, the non-empty-errors success status, and
the field sets of both record shapes. -/
theorem claim7_witness :
    (alookup (workflow_success_result "t" "th" scen0) "completed_agents").isSome = true ∧
    scen0.errors = [] ∧
    alookup (workflow_success_result "t" "th" scen0) "status" = some (.str "completed") ∧
    errState.errors ≠ [] ∧
    alookup (workflow_success_result "t" "th" errState) "status"
      = some (.str "completed_with_errors") ∧
    alookup (workflow_failed_result "t" "th" "boom" scen0.progress) "completed_agents"
      = none :=
  ⟨(claim7_workflow_result_fields "t" "th" "boom" scen0.progress scen0).2.2.1
      "completed_agents" (by decide),
   rfl,
   (claim7_workflow_result_fields "t" "th" "boom" scen0.progress scen0).2.2.2.1 rfl,
   by decide,
   (claim7_workflow_result_fields "t" "th" "boom" scen0.progress errState).2.2.2.2.1
      (by decide),
   (claim7_workflow_result_fields "t" "th" "boom" scen0.progress scen0).2.2.2.2.2.2.2⟩

/-! ### C8 -/

/-- C8: in every reachable configuration, progress.phases_completed has at
most five entries, each drawn from the five phase names, each name appears
at most once even under analysis/QA retries, and "editing" is never
recorded. -/
theorem claim8_phases_completed {n : Node} {s : SupervisorState}
    (h : Reachable n s) :
    s.progress.phases_completed.length ≤ 5 ∧
    (∀ p ∈ s.progress.phases_completed, p ∈ phaseNames) ∧
    (∀ p : String, s.progress.phases_completed.count p ≤ 1) ∧
    "editing" ∉ s.progress.phases_completed := by
  obtain ⟨h1, h2, h3, h4⟩ := reachable_inv h
  refine ⟨?_, h2, ?_, ?_⟩
  · have hsub : s.progress.phases_completed ⊆ phaseNames := fun a ha => h2 a ha
    have hlen := List.Subperm.length_le (List.subperm_of_subset h3 hsub)
    simpa [phaseNames] using hlen
  · exact fun p => List.nodup_iff_count_le_one.mp h3 p
  · intro hmem
    exact absurd (h2 _ hmem) (by decide)

/-- C8 witness: the theorem applied at the reachable mid-run configuration
that has completed four phases. -/
theorem claim8_witness :
    Reachable .editing scen4 ∧
    scen4.progress.phases_completed.length ≤ 5 ∧
    "editing" ∉ scen4.progress.phases_completed :=
  ⟨scen4_reachable,
   (claim8_phases_completed scen4_reachable).1,
   (claim8_phases_completed scen4_reachable).2.2.2⟩

/-! ### C9 -/

/-- C9: in every reachable configuration, the clearing step executed on
re-entry of the analysis phase removes exactly the occurrences of
quantitative_analysis, qualitative_analysis and synthesis from
completed_agents — i.e. it filters those three names out, keeping every
other entry in order — and leaves every other state field unchanged. -/
theorem claim9_analysis_clear {n : Node} {s : SupervisorState}
    (h : Reachable n s) :
    (analysisClearStep s).completed_agents
      = s.completed_agents.filter (fun a => decide (a ∉ analysisAgentNames)) ∧
    (analysisClearStep s).research_topic = s.research_topic ∧
    (analysisClearStep s).current_phase = s.current_phase ∧
    (analysisClearStep s).agent_outputs = s.agent_outputs ∧
    (analysisClearStep s).next_agent = s.next_agent ∧
    (analysisClearStep s).requirements = s.requirements ∧
    (analysisClearStep s).user_sources = s.user_sources ∧
    (analysisClearStep s).progress = s.progress ∧
    (analysisClearStep s).errors = s.errors ∧
    (analysisClearStep s).qa_retry_count = s.qa_retry_count ∧
    (analysisClearStep s).current_section = s.current_section := by
  have hinv := reachable_inv h
  exact ⟨clear_analysis_eq_filter _ hinv.2.2.2,
    rfl, rfl, rfl, rfl, rfl, rfl, rfl, rfl, rfl, rfl⟩

/-- C9 witness: the theorem applied at the reachable configuration whose
completed_agents holds research-planning, analysis and QA agent names. -/
theorem claim9_witness :
    Reachable .editing scen4 ∧
    (analysisClearStep scen4).completed_agents
      = scen4.completed_agents.filter (fun a => decide (a ∉ analysisAgentNames)) :=
  ⟨scen4_reachable, (claim9_analysis_clear scen4_reachable).1⟩

/-! ### C10 -/

/-- C10: whenever agent_outputs["PeerReviewAgent"] is a non-empty list, the
QA executor's retry update and the QA→generation predicate both read
quality_score from element 0 (the oldest peer-review result), and
BaseAgent.process appends each new peer-review result at the END of that
list, so element 0 — and hence the observed score — stays the first QA
pass's result on every retry. -/
theorem claim10_peer_review_element_zero (s : SupervisorState) (r : AgentResult)
    (rs : List AgentResult)
    (h : alookup s.agent_outputs "PeerReviewAgent" = some (.list (r :: rs))) :
    (∀ retry : Nat, qa_retry_update s.agent_outputs retry
        = if r.quality_score.getD 7 < 6 ∧ retry < 3 then retry + 1 else retry) ∧
    (s.errors.length ≤ 10 → s.qa_retry_count < 3 →
      (should_continue_to_generation s = "edit" ↔ r.quality_score.getD 7 < 6)) ∧
    (∀ (res : AgentResult) (errs : List String),
      alookup (processAgent "PeerReviewAgent" (.ok res) s.agent_outputs errs).1
        "PeerReviewAgent" = some (.list (r :: (rs ++ [res])))) := by
  refine ⟨?_, ?_, ?_⟩
  · intro retry
    unfold qa_retry_update
    rw [h]
    rfl
  · intro hle h3
    unfold should_continue_to_generation
    rw [if_neg (by rintro ⟨hne, hgt⟩; omega), if_neg (by omega)]
    simp only [h]
    constructor
    · intro he
      split at he
      · rename_i hc
        exact hc.1
      · exact absurd he (by decide)
    · intro hlt
      rw [if_pos ⟨hlt, h3⟩]
  · intro res errs
    unfold processAgent
    rw [h]
    simpa using alookup_aset_self s.agent_outputs "PeerReviewAgent"
      (OutputVal.list ((r :: rs) ++ [res]))

/-- C10 witness: the theorem applied after the first QA pass of the
low-score run, where the stored peer-review list is non-empty. -/
theorem claim10_witness :
    alookup scen4.agent_outputs "PeerReviewAgent" = some (.list [prLow]) ∧
    qa_retry_update scen4.agent_outputs 0
      = (if prLow.quality_score.getD 7 < 6 ∧ 0 < 3 then 0 + 1 else 0) ∧
    scen4.errors.length ≤ 10 ∧ scen4.qa_retry_count < 3 ∧
    (should_continue_to_generation scen4 = "edit" ↔ prLow.quality_score.getD 7 < 6) ∧
    alookup (processAgent "PeerReviewAgent" (.ok { timestamp := 9 })
        scen4.agent_outputs []).1 "PeerReviewAgent"
      = some (.list (prLow :: ([] ++ [{ timestamp := 9 }]))) :=
  ⟨by decide,
   (claim10_peer_review_element_zero scen4 prLow [] (by decide)).1 0,
   by decide, by decide,
   (claim10_peer_review_element_zero scen4 prLow [] (by decide)).2.1 (by decide) (by decide),
   (claim10_peer_review_element_zero scen4 prLow [] (by decide)).2.2 { timestamp := 9 } []⟩

/-! ### C2 -/

theorem processAgent_lookup_ne (cn : String) (oc : AgentOutcome) (outs : Outputs)
    (errs : List String) (k : String) (h : cn ≠ k) :
    alookup (processAgent cn oc outs errs).1 k = alookup outs k := by
  unfold processAgent
  cases oc with
  | err m => rfl
  | ok r =>
      rcases ho : alookup outs cn with _ | v
      · simp [alookup_aset_ne _ _ _ _ h]
      · cases v <;> simp [alookup_aset_ne _ _ _ _ h]

theorem runAgentStep_lookup_ne (beh : String → AgentOutcome) (st : SupervisorState)
    (p : String × String) (k : String) (h : p.2 ≠ k) :
    alookup (runAgentStep beh st p).agent_outputs k = alookup st.agent_outputs k := by
  simp [runAgentStep, processAgent_lookup_ne _ _ _ _ _ h]

theorem processAgent_lookup_self_none (cn : String) (r : AgentResult) (outs : Outputs)
    (errs : List String) (h : alookup outs cn = none) :
    alookup (processAgent cn (.ok r) outs errs).1 cn = some (.list [r]) := by
  unfold processAgent
  rw [h]
  simpa using alookup_aset_self outs cn (OutputVal.list [r])

theorem processAgent_lookup_self_list (cn : String) (r : AgentResult) (outs : Outputs)
    (errs : List String) (rs : List AgentResult)
    (h : alookup outs cn = some (.list rs)) :
    alookup (processAgent cn (.ok r) outs errs).1 cn = some (.list (rs ++ [r])) := by
  unfold processAgent
  rw [h]
  simpa using alookup_aset_self outs cn (OutputVal.list (rs ++ [r]))

theorem runAgentStep_ok_none (beh : String → AgentOutcome) (st : SupervisorState)
    (p : String × String) (r : AgentResult) (hb : beh p.1 = .ok r)
    (h0 : alookup st.agent_outputs p.2 = none) :
    runAgentStep beh st p
      = { st with
          agent_outputs := aset st.agent_outputs p.2 (.list [r])
          completed_agents := st.completed_agents ++ [p.1] } := by
  simp [runAgentStep, hb, processAgent, h0]

/-- When qualitative_analysis fails: behaviour of the concrete run. -/
def failBeh : String → AgentOutcome := fun a =>
  if a = "qualitative_analysis" then .err "boom" else .ok { timestamp := 1 }

def failRes : SupervisorState := analysis_supervisor failBeh (initialState "t" [] "0")

/-- C2 is false as stated: when qualitative_analysis raises, the exception
is caught inside BaseAgent.process (the phase executor's handler never
fires), the error string is prefixed by the agent class name alone, and the
FAILED agent's name still ends up in completed_agents, because process
returns normally after swallowing the exception. -/
theorem claim2_counterexample :
    failBeh "qualitative_analysis" = .err "boom" ∧
    failRes.errors = ["QualitativeAnalysisAgent: boom"] ∧
    "qualitative_analysis" ∈ failRes.completed_agents := by decide

/-- C2 (amended): if the qualitative-analysis generation call raises, the
exception is caught by BaseAgent.process itself, converted to a string and
appended to state.errors prefixed with the raising agent's class name; the
remaining agents of the phase still execute and record their outputs; the
failed agent records no output; and completed_agents receives the names of
ALL three phase agents, the failed one included. -/
theorem claim2_agent_failure (beh : String → AgentOutcome) (s : SupervisorState)
    (m : String) (r1 r3 : AgentResult)
    (hq : beh "quantitative_analysis" = .ok r1)
    (hql : beh "qualitative_analysis" = .err m)
    (hs3 : beh "synthesis" = .ok r3)
    (h0q : alookup s.agent_outputs "QuantitativeAnalysisAgent" = none)
    (h0s : alookup s.agent_outputs "SynthesisAgent" = none) :
    (analysis_supervisor beh s).errors
      = s.errors ++ ["QualitativeAnalysisAgent: " ++ m] ∧
    alookup (analysis_supervisor beh s).agent_outputs "QuantitativeAnalysisAgent"
      = some (.list [r1]) ∧
    alookup (analysis_supervisor beh s).agent_outputs "SynthesisAgent"
      = some (.list [r3]) ∧
    alookup (analysis_supervisor beh s).agent_outputs "QualitativeAnalysisAgent"
      = alookup s.agent_outputs "QualitativeAnalysisAgent" ∧
    (analysis_supervisor beh s).completed_agents
      = clearAgentNames analysisAgentNames s.completed_agents
        ++ ["quantitative_analysis", "qualitative_analysis", "synthesis"] := by
  have hfinal := analysis_run_eq beh s
  rw [runAgentStep_ok_none beh (analysisClearStep (setPhase "analysis" s))
      ("quantitative_analysis", "QuantitativeAnalysisAgent") r1 hq h0q] at hfinal
  rw [runAgentStep_err beh _ ("qualitative_analysis", "QualitativeAnalysisAgent")
      m hql] at hfinal
  have hsyn : alookup (aset s.agent_outputs "QuantitativeAnalysisAgent"
      (OutputVal.list [r1])) "SynthesisAgent" = none := by
    rw [alookup_aset_ne _ _ _ _ (by decide), h0s]
  rw [runAgentStep_ok_none beh _ ("synthesis", "SynthesisAgent") r3 hs3 hsyn] at hfinal
  refine ⟨?_, ?_, ?_, ?_, (analysis_fields beh s).2.2⟩
  · rw [hfinal]
    rfl
  · rw [hfinal]
    show alookup (aset (aset s.agent_outputs "QuantitativeAnalysisAgent"
      (OutputVal.list [r1])) "SynthesisAgent" (OutputVal.list [r3]))
      "QuantitativeAnalysisAgent" = _
    rw [alookup_aset_ne _ _ _ _ (by decide)]
    exact alookup_aset_self _ _ _
  · rw [hfinal]
    show alookup (aset (aset s.agent_outputs "QuantitativeAnalysisAgent"
      (OutputVal.list [r1])) "SynthesisAgent" (OutputVal.list [r3]))
      "SynthesisAgent" = _
    exact alookup_aset_self _ _ _
  · rw [hfinal]
    show alookup (aset (aset s.agent_outputs "QuantitativeAnalysisAgent"
      (OutputVal.list [r1])) "SynthesisAgent" (OutputVal.list [r3]))
      "QualitativeAnalysisAgent" = _
    rw [alookup_aset_ne _ _ _ _ (by decide), alookup_aset_ne _ _ _ _ (by decide)]

/-- C2 witness: the amended theorem applied at the concrete failing run. -/
theorem claim2_witness :
    failBeh "qualitative_analysis" = .err "boom" ∧
    failRes.errors = [] ++ ["QualitativeAnalysisAgent: " ++ "boom"] ∧
    alookup failRes.agent_outputs "SynthesisAgent"
      = some (.list [{ timestamp := 1 }]) ∧
    alookup failRes.agent_outputs "QualitativeAnalysisAgent"
      = alookup (initialState "t" [] "0").agent_outputs "QualitativeAnalysisAgent" ∧
    failRes.completed_agents
      = clearAgentNames analysisAgentNames (initialState "t" [] "0").completed_agents
        ++ ["quantitative_analysis", "qualitative_analysis", "synthesis"] :=
  ⟨rfl,
   (claim2_agent_failure failBeh (initialState "t" [] "0") "boom"
      { timestamp := 1 } { timestamp := 1 } rfl rfl rfl rfl rfl).1,
   (claim2_agent_failure failBeh (initialState "t" [] "0") "boom"
      { timestamp := 1 } { timestamp := 1 } rfl rfl rfl rfl rfl).2.2.1,
   (claim2_agent_failure failBeh (initialState "t" [] "0") "boom"
      { timestamp := 1 } { timestamp := 1 } rfl rfl rfl rfl rfl).2.2.2.1,
   (claim2_agent_failure failBeh (initialState "t" [] "0") "boom"
      { timestamp := 1 } { timestamp := 1 } rfl rfl rfl rfl rfl).2.2.2.2⟩

/-! ### C6 -/

theorem analysis_quant_lookup_none (beh : String → AgentOutcome) (s : SupervisorState)
    (r : AgentResult) (hb : beh "quantitative_analysis" = .ok r)
    (h0 : alookup s.agent_outputs "QuantitativeAnalysisAgent" = none) :
    alookup (analysis_supervisor beh s).agent_outputs "QuantitativeAnalysisAgent"
      = some (.list [r]) := by
  rw [analysis_run_eq, updatePhaseProgress_outputs,
    runAgentStep_lookup_ne _ _ _ _ (by decide),
    runAgentStep_lookup_ne _ _ _ _ (by decide)]
  show alookup (processAgent "QuantitativeAnalysisAgent" (beh "quantitative_analysis")
    (analysisClearStep (setPhase "analysis" s)).agent_outputs
    (analysisClearStep (setPhase "analysis" s)).errors).1 "QuantitativeAnalysisAgent" = _
  rw [hb]
  exact processAgent_lookup_self_none _ _ _ _ h0

theorem analysis_quant_lookup_list (beh : String → AgentOutcome) (s : SupervisorState)
    (r : AgentResult) (rs : List AgentResult)
    (hb : beh "quantitative_analysis" = .ok r)
    (h0 : alookup s.agent_outputs "QuantitativeAnalysisAgent" = some (.list rs)) :
    alookup (analysis_supervisor beh s).agent_outputs "QuantitativeAnalysisAgent"
      = some (.list (rs ++ [r])) := by
  rw [analysis_run_eq, updatePhaseProgress_outputs,
    runAgentStep_lookup_ne _ _ _ _ (by decide),
    runAgentStep_lookup_ne _ _ _ _ (by decide)]
  show alookup (processAgent "QuantitativeAnalysisAgent" (beh "quantitative_analysis")
    (analysisClearStep (setPhase "analysis" s)).agent_outputs
    (analysisClearStep (setPhase "analysis" s)).errors).1 "QuantitativeAnalysisAgent" = _
  rw [hb]
  exact processAgent_lookup_self_list _ _ _ _ _ h0

theorem editing_outputs_preserved (eo : EditorOutcome) (t : SupervisorState)
    (cn : String) (h1 : cn ≠ "improvement_guidelines") (h2 : cn ≠ "EditorAgent") :
    alookup (editing_supervisor eo t).agent_outputs cn = alookup t.agent_outputs cn := by
  cases eo with
  | noFeedback r =>
      show alookup (processAgent "EditorAgent" (.ok r)
        (setPhase "editing" t).agent_outputs (setPhase "editing" t).errors).1 cn = _
      rw [processAgent_lookup_ne _ _ _ _ _ (Ne.symm h2)]
      rfl
  | ok g r =>
      show alookup (processAgent "EditorAgent" (.ok r)
        (aset (setPhase "editing" t).agent_outputs "improvement_guidelines"
          (OutputVal.dict g))
        (setPhase "editing" t).errors).1 cn = _
      rw [processAgent_lookup_ne _ _ _ _ _ (Ne.symm h2)]
      exact alookup_aset_ne _ _ _ _ (Ne.symm h1)
  | err e => rfl

/-- Second-pass behaviour: every analysis agent succeeds with a later
timestamp. -/
def accB : String → AgentOutcome := fun _ => .ok { timestamp := 2 }

def accRes : SupervisorState :=
  analysis_supervisor accB (analysis_supervisor scenOk (initialState "t" [] "0"))

/-- C6 is false as stated: after a retry of the analysis phase the
agent_outputs entry for the quantitative agent holds BOTH attempts'
results — the first attempt's result is still element 0 — instead of being
cleared to the fresh attempt's results only. -/
theorem claim6_counterexample :
    alookup accRes.agent_outputs "QuantitativeAnalysisAgent"
      = some (.list [{ timestamp := 1 }, { timestamp := 2 }]) ∧
    ({ timestamp := 1 } : AgentResult) ≠ { timestamp := 2 } := by decide

/-- C6 (amended): a retry of the analysis phase APPENDS the fresh attempt's
result to the per-agent agent_outputs list, so the list accumulates every
attempt's results in order (it is never cleared or overwritten); the
editing phase leaves the analysis agents' agent_outputs entries untouched,
writing only its own keys. -/
theorem claim6_outputs_accumulate (beh beh' : String → AgentOutcome)
    (s : SupervisorState) (r r' : AgentResult)
    (hb : beh "quantitative_analysis" = .ok r)
    (hb' : beh' "quantitative_analysis" = .ok r')
    (h0 : alookup s.agent_outputs "QuantitativeAnalysisAgent" = none) :
    alookup (analysis_supervisor beh' (analysis_supervisor beh s)).agent_outputs
      "QuantitativeAnalysisAgent" = some (.list [r, r']) ∧
    (∀ (eo : EditorOutcome) (t : SupervisorState) (cn : String),
      cn ∈ analysisRequired →
      alookup (editing_supervisor eo t).agent_outputs cn
        = alookup t.agent_outputs cn) := by
  constructor
  · exact analysis_quant_lookup_list beh' (analysis_supervisor beh s) r' [r] hb'
      (analysis_quant_lookup_none beh s r hb h0)
  · intro eo t cn hcn
    simp only [analysisRequired, List.mem_cons, List.not_mem_nil, or_false] at hcn
    rcases hcn with rfl | rfl | rfl <;>
      exact editing_outputs_preserved _ _ _ (by decide) (by decide)

/-- C6 witness: the amended theorem applied at the concrete two-pass run
and at the concrete editing step of the low-score run. -/
theorem claim6_witness :
    alookup (analysis_supervisor accB (analysis_supervisor scenOk scen0)).agent_outputs
      "QuantitativeAnalysisAgent"
      = some (.list [{ timestamp := 1 }, { timestamp := 2 }]) ∧
    alookup (editing_supervisor (.ok { timestamp := 2 } { timestamp := 2 })
        scen4).agent_outputs "QuantitativeAnalysisAgent"
      = alookup scen4.agent_outputs "QuantitativeAnalysisAgent" :=
  ⟨(claim6_outputs_accumulate scenOk accB scen0 { timestamp := 1 } { timestamp := 2 }
      rfl rfl rfl).1,
   (claim6_outputs_accumulate scenOk accB scen0 { timestamp := 1 } { timestamp := 2 }
      rfl rfl rfl).2 (.ok { timestamp := 2 } { timestamp := 2 }) scen4
      "QuantitativeAnalysisAgent" (by decide)⟩

end MultiAgent
